import Mathlib

/-!
Verification of the retry/backoff and reconciliation core of the
`terraform-provider-st-azuread` Terraform provider.

The Go sources are shallowly embedded: every remote call is represented by
its observable effect (a call event, a sleep, a returned value), the remote
API and the standard library (`net.ParseCIDR`, the SDK clients, the random
number generator of the backoff library) are passed in as explicit oracles,
and durations are natural numbers of milliseconds.  Operations are modelled
as taking zero time themselves, so the elapsed time seen by the backoff
executor equals the sum of the backoff sleeps performed so far.
-/

/- ----------------------------------------------------------------- -/
/- Failure classification (`isAbleToRetry`, `handleAPIError`)        -/
/- ----------------------------------------------------------------- -/

/-- Mirrors the constant `ERR_TOO_MANY_REQ = 429`. -/
def ERR_TOO_MANY_REQ : Int := 429

/-- Mirrors the constant `ERR_INTERNAL_ERROR = 500`. -/
def ERR_INTERNAL_ERROR : Int := 500

/-- Mirrors the constant `ERR_SERVICE_UNAVAILABLE = 503`. -/
def ERR_SERVICE_UNAVAILABLE : Int := 503

/-- Mirrors the constant `ERR_BANDWITH_LIMIT_EXCEEDED = 509` (typo kept from the source). -/
def ERR_BANDWITH_LIMIT_EXCEEDED : Int := 509

/-- Embeds `isAbleToRetry(errCode int) bool`: a `switch` returning `true`
exactly for the four listed status codes and `false` otherwise. -/
def isAbleToRetry (errCode : Int) : Bool :=
  errCode == ERR_TOO_MANY_REQ ||
  errCode == ERR_INTERNAL_ERROR ||
  errCode == ERR_SERVICE_UNAVAILABLE ||
  errCode == ERR_BANDWITH_LIMIT_EXCEEDED

/-- An error value handed to `handleAPIError`.  `errors.As` succeeds exactly
when the error wraps an `*odataerrors.ODataError`, in which case an integer
status code is extractable via `GetStatusCode()`; otherwise no status code
can be extracted. -/
inductive APIError where
  | odata (statusCode : Int)
  | other
  deriving DecidableEq

/-- Result of an operation as seen by `backoff.Retry`: a plain error is
retried, an error wrapped by `backoff.Permanent` aborts the loop.  The
wrapped payload is the original error in both cases. -/
inductive RetryError (ε : Type) where
  | transient (e : ε)
  | permanent (e : ε)
  deriving DecidableEq

/-- Embeds `handleAPIError(err error) error`: if the error is an ODataError
whose status code `isAbleToRetry`, the error is returned as-is (retryable);
otherwise it is wrapped with `backoff.Permanent`. -/
def handleAPIError (e : APIError) : RetryError APIError :=
  match e with
  | .odata code =>
      if isAbleToRetry code then .transient (.odata code)
      else .permanent (.odata code)
  | .other => .permanent .other

/- ----------------------------------------------------------------- -/
/- The backoff executor (github.com/cenkalti/backoff `Retry` with an  -/
/- `ExponentialBackOff`, MaxElapsedTime overridden to 30 seconds)     -/
/- ----------------------------------------------------------------- -/

/-- Observable outcome of a `backoff.Retry` run: the returned value
(`none` only when the modelling fuel ran out, which no theorem relies on),
the number of times the operation was invoked, and the backoff sleeps
performed, in order. -/
structure RetryOutcome (ε α : Type) where
  result : Option (Except ε α)
  attempts : Nat
  sleeps : List Nat

/-- Embeds the loop of `backoff.Retry` with an `ExponentialBackOff`.

The Go loop invokes the operation; on success or on a `Permanent` error it
returns at once (unwrapping the permanent error to its payload).  On a plain
error it asks `NextBackOff()`, which returns `Stop` when the elapsed time
exceeds `maxElapsed` and otherwise a randomized duration derived from the
current interval, after which the current interval is multiplied by 1.5 and
capped at `maxInterval`.  The randomization (`rand n interval`) is an oracle
giving the duration actually slept at attempt `n` with current interval
`interval`.  `fuel` bounds the number of attempts purely to make the
definition total. -/
def retryGo {ε α : Type} (op : Nat → Except (RetryError ε) α) (rand : Nat → Nat → Nat)
    (maxInterval maxElapsed : Nat) :
    Nat → Nat → Nat → Nat → List Nat → RetryOutcome ε α
  | 0, n, _interval, _elapsed, acc => ⟨none, n, acc.reverse⟩
  | fuel+1, n, interval, elapsed, acc =>
    match op n with
    | .ok a => ⟨some (.ok a), n + 1, acc.reverse⟩
    | .error (.permanent e) => ⟨some (.error e), n + 1, acc.reverse⟩
    | .error (.transient e) =>
      if maxElapsed < elapsed then
        ⟨some (.error e), n + 1, acc.reverse⟩
      else
        retryGo op rand maxInterval maxElapsed fuel (n + 1)
          (min (interval * 3 / 2) maxInterval) (elapsed + rand n interval)
          (rand n interval :: acc)

/-- Embeds `backoff.Retry(op, reconnectBackoff)` where `reconnectBackoff`
is `backoff.NewExponentialBackOff()` (initial interval 500 ms, multiplier
1.5, max interval 60 s) with `MaxElapsedTime` set to `30 * time.Second`,
exactly as every call site in the repository configures it. -/
def backoffRetry {ε α : Type} (op : Nat → Except (RetryError ε) α)
    (rand : Nat → Nat → Nat) (fuel : Nat) : RetryOutcome ε α :=
  retryGo op rand 60000 30000 fuel 0 500 0 []

/- ----------------------------------------------------------------- -/
/- Theorems: C1, C2                                                   -/
/- ----------------------------------------------------------------- -/

/-- C1. For every error carrying an extractable HTTP status code, the
classifier `handleAPIError` returns the error as retryable iff the code is
in {429, 500, 503, 509}; every other code, and every error without an
extractable status code, is classified Permanent. -/
theorem handleAPIError_retryable_iff :
    (∀ c : Int, handleAPIError (.odata c) = .transient (.odata c) ↔
      (c = 429 ∨ c = 500 ∨ c = 503 ∨ c = 509)) ∧
    (∀ c : Int, ¬(c = 429 ∨ c = 500 ∨ c = 503 ∨ c = 509) →
      handleAPIError (.odata c) = .permanent (.odata c)) ∧
    handleAPIError .other = .permanent .other := by
  refine ⟨fun c => ?_, fun c hc => ?_, rfl⟩
  · simp only [handleAPIError, isAbleToRetry, ERR_TOO_MANY_REQ, ERR_INTERNAL_ERROR,
      ERR_SERVICE_UNAVAILABLE, ERR_BANDWITH_LIMIT_EXCEEDED]
    constructor
    · intro h
      by_contra hc
      push_neg at hc
      obtain ⟨h1, h2, h3, h4⟩ := hc
      simp [h1, h2, h3, h4] at h
    · rintro (rfl | rfl | rfl | rfl) <;> simp
  · simp only [handleAPIError, isAbleToRetry, ERR_TOO_MANY_REQ, ERR_INTERNAL_ERROR,
      ERR_SERVICE_UNAVAILABLE, ERR_BANDWITH_LIMIT_EXCEEDED]
    push_neg at hc
    obtain ⟨h1, h2, h3, h4⟩ := hc
    simp [h1, h2, h3, h4]

/-- Witness for C1: code 404 is classified Permanent and 429 retryable. -/
theorem handleAPIError_retryable_iff_witness :
    handleAPIError (.odata 404) = .permanent (.odata 404) ∧
    handleAPIError (.odata 429) = .transient (.odata 429) :=
  ⟨handleAPIError_retryable_iff.2.1 404 (by decide),
   (handleAPIError_retryable_iff.1 429).2 (by decide)⟩

/-- C2. If the first invocation of the operation fails with an error wrapped
as Permanent, the executor returns that failure immediately: the operation
is invoked exactly once and no backoff sleep happens. -/
theorem backoffRetry_permanent_first_attempt {ε α : Type}
    (op : Nat → Except (RetryError ε) α) (rand : Nat → Nat → Nat)
    (fuel : Nat) (e : ε) (hf : 0 < fuel) (h : op 0 = .error (.permanent e)) :
    backoffRetry op rand fuel = ⟨some (.error e), 1, []⟩ := by
  cases fuel with
  | zero => exact absurd hf (by simp)
  | succ f => simp [backoffRetry, retryGo, h]

/-- Witness for C2 at a concrete permanently failing operation. -/
theorem backoffRetry_permanent_first_attempt_witness :
    backoffRetry (fun _ => (.error (.permanent (APIError.odata 400)) : Except (RetryError APIError) Unit))
      (fun _ i => i) 5 = ⟨some (.error (APIError.odata 400)), 1, []⟩ :=
  backoffRetry_permanent_first_attempt _ _ 5 (APIError.odata 400) (by decide) rfl

/- ----------------------------------------------------------------- -/
/- General lemmas about the backoff executor (for C3 and C8)          -/
/- ----------------------------------------------------------------- -/

/-- Every error surfaced by the retry loop is an error the operation itself
returned (either plain or wrapped as permanent): the loop constructs no
error value of its own. -/
theorem retryGo_error_from_op {ε α : Type} (op : Nat → Except (RetryError ε) α)
    (rand : Nat → Nat → Nat) (mi me : Nat) :
    ∀ (fuel n interval elapsed : Nat) (acc : List Nat) (e : ε),
      (retryGo op rand mi me fuel n interval elapsed acc).result = some (.error e) →
      ∃ k, op k = .error (.transient e) ∨ op k = .error (.permanent e) := by
  intro fuel
  induction fuel with
  | zero => intro n interval elapsed acc e h; simp [retryGo] at h
  | succ f ih =>
    intro n interval elapsed acc e h
    rw [retryGo] at h
    cases hop : op n with
    | ok a => rw [hop] at h; simp at h
    | error re =>
      cases re with
      | permanent e0 =>
        rw [hop] at h; simp at h
        exact ⟨n, Or.inr (by rw [hop, h])⟩
      | transient e0 =>
        rw [hop] at h
        by_cases hel : me < elapsed
        · simp [hel] at h
          exact ⟨n, Or.inl (by rw [hop, h])⟩
        · simp [hel] at h
          exact ih _ _ _ _ e h

/-- Every backoff sleep in a retry run begins only while the elapsed time
so far (the sum of the earlier sleeps; operations are modelled as taking
zero time) is at most `maxElapsed`: before sleeping, `NextBackOff` returns
`Stop` whenever the elapsed time exceeds the budget. -/
theorem retryGo_sleep_starts_within_budget {ε α : Type}
    (op : Nat → Except (RetryError ε) α) (rand : Nat → Nat → Nat) (mi me : Nat) :
    ∀ (fuel n interval elapsed : Nat) (acc : List Nat),
      elapsed = acc.sum →
      (∀ i, i < acc.length → (acc.reverse.take i).sum ≤ me) →
      ∀ i, i < (retryGo op rand mi me fuel n interval elapsed acc).sleeps.length →
        ((retryGo op rand mi me fuel n interval elapsed acc).sleeps.take i).sum ≤ me := by
  intro fuel
  induction fuel with
  | zero =>
    intro n interval elapsed acc hsum hacc i hi
    simp only [retryGo] at hi ⊢
    exact hacc i (by simpa using hi)
  | succ f ih =>
    intro n interval elapsed acc hsum hacc i hi
    cases hop : op n with
    | ok a =>
      simp only [retryGo, hop] at hi ⊢
      exact hacc i (by simpa using hi)
    | error re =>
      cases re with
      | permanent e0 =>
        simp only [retryGo, hop] at hi ⊢
        exact hacc i (by simpa using hi)
      | transient e0 =>
        by_cases hel : me < elapsed
        · simp only [retryGo, hop, if_pos hel] at hi ⊢
          exact hacc i (by simpa using hi)
        · simp only [retryGo, hop, if_neg hel] at hi ⊢
          refine ih _ _ _ _ ?_ ?_ i hi
          · simp [List.sum_cons, hsum]; omega
          · intro j hj
            simp only [List.length_cons] at hj
            rw [List.reverse_cons,
              List.take_append_of_le_length (by simp; omega)]
            rcases Nat.lt_or_ge j acc.length with hj2 | hj2
            · exact hacc j hj2
            · have hje : j = acc.length := by omega
              subst hje
              rw [← List.length_reverse, List.take_length, List.sum_reverse]
              omega

/-- Operation returning, at every attempt, a retryable 429 error, as a
remote rate limit that never clears would produce through `handleAPIError`. -/
def opAlwaysTooManyRequests : Nat → Except (RetryError APIError) Unit :=
  fun _ => .error (handleAPIError (.odata 429))

/-- Operation failing, at every attempt, with a permanently classified 429
error value, as a definitive remote rejection carrying the same payload. -/
def opRejectedPermanently : Nat → Except (RetryError APIError) Unit :=
  fun _ => .error (.permanent (.odata 429))

/-- Midpoint randomization oracle: `getRandomValueFromInterval(0.5, random,
interval)` yields exactly the current interval when the drawn random value
is 0.5, so this oracle is one realizable behaviour of the library. -/
def midRand : Nat → Nat → Nat := fun _ interval => interval

/-- C8 counterexample. When the budget is exhausted while the operation
keeps failing retryably (ten invocations happen before the executor gives
up), the surfaced failure is the last error value of the operation,
`APIError.odata 429`, and a run whose operation is rejected permanently
with the same payload surfaces the identical value: no distinct
budget-exhausted error exists to distinguish the two. -/
theorem backoffRetry_budget_error_not_distinct :
    (backoffRetry opAlwaysTooManyRequests midRand 20).result
        = some (.error (APIError.odata 429)) ∧
    10 ≤ (backoffRetry opAlwaysTooManyRequests midRand 20).attempts ∧
    (backoffRetry opRejectedPermanently midRand 20).result
        = some (.error (APIError.odata 429)) := by
  refine ⟨rfl, by decide, rfl⟩

/-- C8 amended. On budget exhaustion (as on permanent failure) the executor
surfaces an error value produced by the operation itself, unchanged; it
never constructs a distinct budget-exhausted error. -/
theorem backoffRetry_surfaces_operation_error {ε α : Type}
    (op : Nat → Except (RetryError ε) α) (rand : Nat → Nat → Nat)
    (fuel : Nat) (e : ε)
    (h : (backoffRetry op rand fuel).result = some (.error e)) :
    ∃ k, op k = .error (.transient e) ∨ op k = .error (.permanent e) :=
  retryGo_error_from_op op rand 60000 30000 fuel 0 500 0 [] e h

/-- Witness for the amended C8 theorem at a concrete failing operation. -/
theorem backoffRetry_surfaces_operation_error_witness :
    ∃ k, opRejectedPermanently k = .error (.transient (.odata 429)) ∨
      opRejectedPermanently k = .error (.permanent (.odata 429)) :=
  backoffRetry_surfaces_operation_error opRejectedPermanently midRand 3
    (.odata 429) rfl

/- ----------------------------------------------------------------- -/
/- Named locations: remote model and the create closures              -/
/- ----------------------------------------------------------------- -/

/-- A named location as returned by the Graph SDK: `GetId()` and
`GetDisplayName()` both return nullable string pointers. -/
structure RemoteNamedLocation where
  id : Option String
  displayName : Option String
  deriving DecidableEq

/-- An error returned by the `Post` call in the create closures: the code
type-asserts it against `*errors.TencentCloudSDKError` (which carries a
string code); every other error is left unclassified. -/
inductive NLPostError (ε : Type) where
  | tencent (code : String)
  | sdkErr (e : ε)
  deriving DecidableEq

/-- Error payloads a create closure can produce: a raw SDK error, a Tencent
error (kept with its code), the `strconv.Atoi` conversion failure wrapped by
`fmt.Errorf`, and the `returned no ID` error. -/
inductive NLFailure (ε : Type) where
  | sdk (e : ε)
  | tencentCode (code : String)
  | codeConvFailed (code : String)
  | createdNoID
  deriving DecidableEq

/-- Return value of one invocation of a create closure: `nil`, an error
(classified for `backoff.Retry`), or a nil-pointer dereference (the adopt
branch dereferences `location.GetId()` without a nil check). -/
inductive AttemptResult (ε : Type) where
  | ok
  | fail (e : RetryError ε)
  | nilDeref
  deriving DecidableEq

/-- Observable outcome of one invocation of a create closure: its return
value, the value written to `plan.ID` (if any), the number of `Post` calls
issued, and the sleeps performed inside the closure. -/
structure AttemptOutcome (ε : Type) where
  res : AttemptResult (NLFailure ε)
  planID : Option String
  posts : Nat
  sleeps : List Nat
  deriving DecidableEq

/-- The state-ID path under which a named location ID is recorded. -/
def namedLocationsPathOf (locId : String) : String :=
  "/identity/conditionalAccess/namedLocations/" ++ locId

/-- Embeds the adoption loop shared by both create closures: scan the listed
locations and return, for the first one whose display name is non-nil and
equal to the display name of the plan, its (nullable) ID; `none` when no location
matches. -/
def adoptScan : List RemoteNamedLocation → String → Option (Option String)
  | [], _ => none
  | l :: ls, name =>
    if l.displayName = some name then some l.id else adoptScan ls name

/-- Embeds the error handling of the `Post` branch: a Tencent SDK error has
its code converted with `strconv.Atoi` (conversion failure is Permanent) and
is retried exactly when `isAbleToRetry` accepts the code; any non-Tencent
error is returned raw, hence retried. -/
def classifyPostError {ε : Type} (pe : NLPostError ε) : RetryError (NLFailure ε) :=
  match pe with
  | .tencent code =>
    match code.toInt? with
    | none => .permanent (.codeConvFailed code)
    | some n =>
      if isAbleToRetry n then .transient (.tencentCode code)
      else .permanent (.tencentCode code)
  | .sdkErr e => .transient (.sdk e)

/-- Embeds the retried closure `createIPNamedLocation` inside
`(*namedLocationResource).createIPNamedLocation`: list existing named
locations (a list error is returned raw); adopt the ID of the first one
matching the planned display name and return nil at once; otherwise `Post`
the create request, reject a missing or empty returned ID as Permanent, and
on success record the ID and sleep one minute before returning nil.
`listRes` and `postRes` are the oracle results of the two remote calls. -/
def createIPNamedLocation {ε : Type} (listRes : Except ε (List RemoteNamedLocation))
    (postRes : Except (NLPostError ε) RemoteNamedLocation) (planName : String) :
    AttemptOutcome ε :=
  match listRes with
  | .error e => ⟨.fail (.transient (.sdk e)), none, 0, []⟩
  | .ok locs =>
    match adoptScan locs planName with
    | some (some locId) => ⟨.ok, some (namedLocationsPathOf locId), 0, []⟩
    | some none => ⟨.nilDeref, none, 0, []⟩
    | none =>
      match postRes with
      | .error pe => ⟨.fail (classifyPostError pe), none, 1, []⟩
      | .ok created =>
        match created.id with
        | none => ⟨.fail (.permanent .createdNoID), none, 1, []⟩
        | some s =>
          if s = "" then ⟨.fail (.permanent .createdNoID), none, 1, []⟩
          else ⟨.ok, some (namedLocationsPathOf s), 1, [60000]⟩

/-- Embeds the retried closure `createCountryNamedLocation` inside
`(*namedLocationResource).createCountryNamedLocation`; its control flow is
the same as the IP variant (the source duplicates it verbatim, differing
only in the request body it posts). -/
def createCountryNamedLocation {ε : Type} (listRes : Except ε (List RemoteNamedLocation))
    (postRes : Except (NLPostError ε) RemoteNamedLocation) (planName : String) :
    AttemptOutcome ε :=
  match listRes with
  | .error e => ⟨.fail (.transient (.sdk e)), none, 0, []⟩
  | .ok locs =>
    match adoptScan locs planName with
    | some (some locId) => ⟨.ok, some (namedLocationsPathOf locId), 0, []⟩
    | some none => ⟨.nilDeref, none, 0, []⟩
    | none =>
      match postRes with
      | .error pe => ⟨.fail (classifyPostError pe), none, 1, []⟩
      | .ok created =>
        match created.id with
        | none => ⟨.fail (.permanent .createdNoID), none, 1, []⟩
        | some s =>
          if s = "" then ⟨.fail (.permanent .createdNoID), none, 1, []⟩
          else ⟨.ok, some (namedLocationsPathOf s), 1, [60000]⟩

/-- The adoption loop finds exactly what `List.find?` on the display-name
predicate finds, and returns the nullable ID of that location. -/
theorem adoptScan_eq_find (locs : List RemoteNamedLocation) (name : String) :
    adoptScan locs name
      = (locs.find? (fun l => l.displayName == some name)).map (fun l => l.id) := by
  induction locs with
  | nil => rfl
  | cons l ls ih =>
    by_cases h : l.displayName = some name
    · simp [adoptScan, List.find?, h]
    · simp only [adoptScan, List.find?]
      rw [if_neg h, ih]
      have hb : (l.displayName == some name) = false := by
        simpa using h
      rw [hb]

/- ----------------------------------------------------------------- -/
/- Named locations: Delete with untrust pre-step                      -/
/- ----------------------------------------------------------------- -/

/-- The `ip` block of the named-location resource state: a list of CIDR
strings and the trusted flag. -/
structure NLIpBlock where
  ipRanges : List String
  trusted : Bool
  deriving DecidableEq

/-- The named-location resource state as read from Terraform state: the
full path-like ID, the display name, and the optional `ip` block (the
country block plays no role in `Delete` beyond `state.IP` being nil). -/
structure NLStateModel where
  id : String
  displayName : String
  ip : Option NLIpBlock
  deriving DecidableEq

/-- Classification of a parsed CIDR (`net.ParseCIDR` plus `ip.To4()`), as
produced by the parsing oracle. -/
inductive IPKind where
  | v4
  | v6
  deriving DecidableEq

/-- Remote calls and sleeps observable during `Delete`, in order: the
untrust PATCH (carrying the isTrusted value it sets and whether the call
succeeded), the doubling backoff sleeps of the manual retry loop, the
one-minute settle sleep, and the DELETE call. -/
inductive DelEvent where
  | patchNamedLocation (locId : String) (isTrusted : Bool) (ok : Bool)
  | sleepBackoff (ms : Nat)
  | sleepSettle (ms : Nat)
  | deleteCall (locId : String)
  deriving DecidableEq

/-- Embeds `parts[len(parts)-1]` of `strings.Split(fullID, "/")`. -/
def lastPathComponent (s : String) : String :=
  ((s.splitOn "/").getLast?).getD ""

/-- Embeds the CIDR-translation loop of `Delete`: each range string is
parsed (via the `parseCIDR` oracle standing for `net.ParseCIDR`/`To4`);
the first unparsable string aborts with an error before any remote call. -/
def buildIpRanges (parseCIDR : String → Option IPKind) :
    List String → Except String (List (IPKind × String))
  | [] => .ok []
  | c :: cs =>
    match parseCIDR c with
    | none => .error c
    | some k =>
      match buildIpRanges parseCIDR cs with
      | .error bad => .error bad
      | .ok rest => .ok ((k, c) :: rest)

/-- Embeds the manual retry loop around the untrust PATCH in `Delete`:
up to five attempts; after every failed attempt (the fifth included) the
loop sleeps the current backoff and doubles it (starting at 2 s).  Returns
the events in order and the last error (`none` on success).  `rem` is the
number of attempts left, called with 5. -/
def untrustPatchLoop {ε : Type} (patchRes : Nat → Option ε) (nid : String) :
    Nat → Nat → Nat → List DelEvent × Option ε
  | _i, 0, _bo => ([], none)
  | i, rem+1, bo =>
    match patchRes i with
    | none => ([.patchNamedLocation nid false true], none)
    | some e =>
      match rem with
      | 0 => ([.patchNamedLocation nid false false, .sleepBackoff bo], some e)
      | rem2+1 =>
        let rest := untrustPatchLoop patchRes nid (i+1) (rem2+1) (bo*2)
        (.patchNamedLocation nid false false :: .sleepBackoff bo :: rest.1, rest.2)

/-- Failure surfaced by `Delete` as a diagnostic. -/
inductive NLDeleteFailure (ε : Type) where
  | invalidCIDR (cidr : String)
  | patchFailed (e : ε)
  | deleteFailed (e : ε)
  deriving DecidableEq

/-- Embeds `(*namedLocationResource).Delete`: when the state has an `ip`
block with `trusted` set, it first builds the untrust request (isTrusted
false; an invalid CIDR aborts), runs the five-attempt patch loop, and only
after a successful patch sleeps one minute and issues the DELETE; in every
other case it issues the DELETE directly.  `patchRes` and `deleteRes` are
the oracle results of the remote calls (`none` is success). -/
def namedLocationDelete {ε : Type} (state : NLStateModel)
    (parseCIDR : String → Option IPKind)
    (patchRes : Nat → Option ε) (deleteRes : Option ε) :
    List DelEvent × Option (NLDeleteFailure ε) :=
  let nid := lastPathComponent state.id
  match state.ip with
  | some ipb =>
    if ipb.trusted then
      match buildIpRanges parseCIDR ipb.ipRanges with
      | .error bad => ([], some (.invalidCIDR bad))
      | .ok _ranges =>
        let loopOut := untrustPatchLoop patchRes nid 0 5 2000
        match loopOut.2 with
        | some e => (loopOut.1, some (.patchFailed e))
        | none =>
          (loopOut.1 ++ [.sleepSettle 60000, .deleteCall nid],
           deleteRes.map .deleteFailed)
    else ([.deleteCall nid], deleteRes.map .deleteFailed)
  | none => ([.deleteCall nid], deleteRes.map .deleteFailed)

/-- Total duration of the backoff sleeps in a `Delete` event trace (the
settle sleep is not a backoff delay). -/
def backoffSleepTotal : List DelEvent → Nat
  | [] => 0
  | .sleepBackoff ms :: evs => ms + backoffSleepTotal evs
  | .patchNamedLocation _ _ _ :: evs => backoffSleepTotal evs
  | .sleepSettle _ :: evs => backoffSleepTotal evs
  | .deleteCall _ :: evs => backoffSleepTotal evs

/-- Every event emitted by the untrust-patch loop is an untrust patch call
or a backoff sleep; in particular the loop issues no DELETE. -/
theorem untrustPatchLoop_events {ε : Type} (patchRes : Nat → Option ε) (nid : String) :
    ∀ (rem i bo : Nat), ∀ ev ∈ (untrustPatchLoop patchRes nid i rem bo).1,
      (∃ ok, ev = .patchNamedLocation nid false ok) ∨ (∃ ms, ev = .sleepBackoff ms) := by
  intro rem
  induction rem with
  | zero => intro i bo ev hev; simp [untrustPatchLoop] at hev
  | succ r ih =>
    intro i bo ev hev
    rw [untrustPatchLoop] at hev
    cases hp : patchRes i with
    | none =>
      rw [hp] at hev
      simp at hev
      exact Or.inl ⟨true, hev⟩
    | some e =>
      rw [hp] at hev
      cases r with
      | zero =>
        simp at hev
        rcases hev with rfl | rfl
        · exact Or.inl ⟨false, rfl⟩
        · exact Or.inr ⟨bo, rfl⟩
      | succ r2 =>
        simp only [List.mem_cons] at hev
        rcases hev with rfl | rfl | hev
        · exact Or.inl ⟨false, rfl⟩
        · exact Or.inr ⟨bo, rfl⟩
        · exact ih (i+1) (bo*2) ev hev

/-- When the untrust-patch loop is entered with attempts remaining and
reports success, its trace ends with the successful untrust patch. -/
theorem untrustPatchLoop_success_shape {ε : Type} (patchRes : Nat → Option ε) (nid : String) :
    ∀ (rem i bo : Nat), 0 < rem →
      (untrustPatchLoop patchRes nid i rem bo).2 = none →
      ∃ pre, (untrustPatchLoop patchRes nid i rem bo).1
          = pre ++ [.patchNamedLocation nid false true] := by
  intro rem
  induction rem with
  | zero => intro i bo h; exact absurd h (by simp)
  | succ r ih =>
    intro i bo _ hnone
    rw [untrustPatchLoop] at hnone ⊢
    cases hp : patchRes i with
    | none => exact ⟨[], rfl⟩
    | some e =>
      rw [hp] at hnone
      cases r with
      | zero => simp at hnone
      | succ r2 =>
        dsimp only at hnone ⊢
        obtain ⟨pre, hpre⟩ := ih (i+1) (bo*2) (by simp) hnone
        exact ⟨.patchNamedLocation nid false false :: .sleepBackoff bo :: pre,
          by rw [hpre]; simp⟩

/-- The total backoff slept by the untrust-patch loop, plus one starting
interval, is at most the starting interval times 2 to the attempt count
(geometric series bound for the doubling schedule). -/
theorem untrustPatchLoop_sleep_total_bound {ε : Type} (patchRes : Nat → Option ε)
    (nid : String) :
    ∀ (rem i bo : Nat),
      backoffSleepTotal (untrustPatchLoop patchRes nid i rem bo).1 + bo ≤ bo * 2 ^ rem := by
  intro rem
  induction rem with
  | zero => intro i bo; simp [untrustPatchLoop, backoffSleepTotal]
  | succ r ih =>
    intro i bo
    rw [untrustPatchLoop]
    cases patchRes i with
    | none =>
      simp only [backoffSleepTotal]
      calc backoffSleepTotal [] + bo = bo * 1 := by simp [backoffSleepTotal]
        _ ≤ bo * 2 ^ (r + 1) := Nat.mul_le_mul_left bo (Nat.one_le_two_pow)
    | some e =>
      cases r with
      | zero => simp [backoffSleepTotal]; omega
      | succ r2 =>
        dsimp only
        simp only [backoffSleepTotal]
        have hih := ih (i+1) (bo*2)
        have hpow : bo * 2 ^ (r2 + 1 + 1) = bo * 2 * 2 ^ (r2 + 1) := by ring
        rw [hpow]
        omega

/-- Concrete named-location state: a trusted IP named location with one
IPv4 range, as stored by a prior apply. -/
def cDeleteState : NLStateModel :=
  ⟨"/identity/conditionalAccess/namedLocations/abc123", "corp-net",
   some ⟨["10.0.0.0/8"], true⟩⟩

/-- Parsing oracle under which every range string is a valid IPv4 CIDR. -/
def cParseV4 : String → Option IPKind := fun _ => some .v4

/-- Patch oracle that fails every attempt (e.g. the remote keeps answering 503). -/
def cPatchAlwaysFails : Nat → Option Nat := fun _ => some 503

/-- Patch oracle that succeeds at the first attempt. -/
def cPatchAlwaysOk : Nat → Option Nat := fun _ => none

/-- C3 counterexample.  Deleting a trusted IP named location whose untrust
patch keeps failing spends 2+4+8+16+32 = 62 seconds in backoff sleeps —
a retry of a remote operation whose total backoff delay exceeds the
30-second max elapsed time the claim asserts as a global bound. -/
theorem namedLocationDelete_backoff_total_62s :
    backoffSleepTotal
        (namedLocationDelete cDeleteState cParseV4 cPatchAlwaysFails
          (none : Option Nat)).1 = 62000 ∧
    30000 < 62000 :=
  ⟨rfl, by decide⟩

/-- C3 amended.  For operations run through the exponential-backoff
executor (max elapsed time 30 s), every backoff sleep begins only while the
elapsed backoff time is still within the budget — so the prefix of sleeps
before any sleep sums to at most 30 s, though the final sleep may overshoot;
the manual untrust-patch loop in `Delete` is instead bounded by its fixed
doubling schedule, 62 seconds in total. -/
theorem retry_time_budget_bounds :
    (∀ (ε α : Type) (op : Nat → Except (RetryError ε) α) (rand : Nat → Nat → Nat)
        (fuel i : Nat),
      i < (backoffRetry op rand fuel).sleeps.length →
      ((backoffRetry op rand fuel).sleeps.take i).sum ≤ 30000) ∧
    (∀ (ε : Type) (patchRes : Nat → Option ε) (nid : String),
      backoffSleepTotal (untrustPatchLoop patchRes nid 0 5 2000).1 ≤ 62000) := by
  constructor
  · intro ε α op rand fuel i hi
    exact retryGo_sleep_starts_within_budget op rand 60000 30000 fuel 0 500 0 []
      rfl (by simp) i hi
  · intro ε patchRes nid
    have h := untrustPatchLoop_sleep_total_bound patchRes nid 5 0 2000
    norm_num at h
    omega

/-- Witness for the amended C3 bounds at concrete runs. -/
theorem retry_time_budget_bounds_witness :
    ((backoffRetry opAlwaysTooManyRequests midRand 20).sleeps.take 3).sum ≤ 30000 ∧
    backoffSleepTotal (untrustPatchLoop cPatchAlwaysFails "abc123" 0 5 2000).1 ≤ 62000 :=
  ⟨retry_time_budget_bounds.1 APIError Unit opAlwaysTooManyRequests midRand 20 3 (by decide),
   retry_time_budget_bounds.2 Nat cPatchAlwaysFails "abc123"⟩

/-- C5. Deleting a named location whose state carries a trusted IP block:
whenever the DELETE call appears in the trace, the trace ends with a
successful untrust patch (isTrusted set to false), then the one-minute
settle sleep, then the DELETE — and no DELETE occurs before the successful
untrust patch. -/
theorem namedLocationDelete_untrust_before_delete {ε : Type}
    (st : NLStateModel) (ipb : NLIpBlock) (parseCIDR : String → Option IPKind)
    (patchRes : Nat → Option ε) (deleteRes : Option ε)
    (hip : st.ip = some ipb) (htr : ipb.trusted = true)
    (hdel : DelEvent.deleteCall (lastPathComponent st.id)
        ∈ (namedLocationDelete st parseCIDR patchRes deleteRes).1) :
    ∃ pre, (namedLocationDelete st parseCIDR patchRes deleteRes).1
        = pre ++ [DelEvent.patchNamedLocation (lastPathComponent st.id) false true,
            DelEvent.sleepSettle 60000,
            DelEvent.deleteCall (lastPathComponent st.id)] ∧
      DelEvent.deleteCall (lastPathComponent st.id) ∉ pre := by
  unfold namedLocationDelete at hdel ⊢
  rw [hip] at hdel ⊢
  simp only [htr, if_true] at hdel ⊢
  cases hbr : buildIpRanges parseCIDR ipb.ipRanges with
  | error bad =>
    rw [hbr] at hdel
    simp at hdel
  | ok ranges =>
    rw [hbr] at hdel
    cases hres : (untrustPatchLoop patchRes (lastPathComponent st.id) 0 5 2000).2 with
    | some e =>
      rw [hres] at hdel
      rcases untrustPatchLoop_events patchRes (lastPathComponent st.id) 5 0 2000
          _ hdel with ⟨ok, h⟩ | ⟨ms, h⟩ <;> simp at h
    | none =>
      dsimp only
      obtain ⟨pre, hpre⟩ := untrustPatchLoop_success_shape patchRes
        (lastPathComponent st.id) 5 0 2000 (by decide) hres
      refine ⟨pre, ?_, ?_⟩
      · rw [hpre]; simp
      · intro hmem
        have hmem2 : DelEvent.deleteCall (lastPathComponent st.id)
            ∈ (untrustPatchLoop patchRes (lastPathComponent st.id) 0 5 2000).1 := by
          rw [hpre]
          exact List.mem_append_left _ hmem
        rcases untrustPatchLoop_events patchRes (lastPathComponent st.id) 5 0 2000
            _ hmem2 with ⟨ok, h⟩ | ⟨ms, h⟩ <;> simp at h

/-- Witness for C5: a trusted state whose untrust patch succeeds at once. -/
theorem namedLocationDelete_untrust_before_delete_witness :
    ∃ pre, (namedLocationDelete cDeleteState cParseV4 cPatchAlwaysOk
        (none : Option Nat)).1
        = pre ++ [DelEvent.patchNamedLocation (lastPathComponent cDeleteState.id) false true,
            DelEvent.sleepSettle 60000,
            DelEvent.deleteCall (lastPathComponent cDeleteState.id)] ∧
      DelEvent.deleteCall (lastPathComponent cDeleteState.id) ∉ pre :=
  namedLocationDelete_untrust_before_delete cDeleteState ⟨["10.0.0.0/8"], true⟩
    cParseV4 cPatchAlwaysOk none rfl rfl
    (show DelEvent.deleteCall (lastPathComponent cDeleteState.id)
        ∈ [DelEvent.patchNamedLocation (lastPathComponent cDeleteState.id) false true,
           DelEvent.sleepSettle 60000,
           DelEvent.deleteCall (lastPathComponent cDeleteState.id)] by simp)

/- ----------------------------------------------------------------- -/
/- Theorems: C4 and C6 (idempotent create, settle wait)               -/
/- ----------------------------------------------------------------- -/

/-- C4. Create is idempotent by display name, for both variants: if the
listed remote locations contain one whose display name equals the planned
name (the first such match, with a present ID), no Post is issued and that ID is
adopted into `plan.ID`; if none matches and the Post succeeds with a
non-empty ID, exactly one Post is issued and the returned ID is captured. -/
theorem createNamedLocation_idempotent_by_display_name {ε : Type}
    (locs : List RemoteNamedLocation) (planName : String)
    (postRes : Except (NLPostError ε) RemoteNamedLocation) :
    (∀ loc locId,
      locs.find? (fun l => l.displayName == some planName) = some loc →
      loc.id = some locId →
      createIPNamedLocation (.ok locs) postRes planName
          = ⟨.ok, some (namedLocationsPathOf locId), 0, []⟩ ∧
      createCountryNamedLocation (.ok locs) postRes planName
          = ⟨.ok, some (namedLocationsPathOf locId), 0, []⟩) ∧
    (∀ created cid,
      locs.find? (fun l => l.displayName == some planName) = none →
      postRes = .ok created →
      created.id = some cid →
      cid ≠ "" →
      createIPNamedLocation (.ok locs) postRes planName
          = ⟨.ok, some (namedLocationsPathOf cid), 1, [60000]⟩ ∧
      createCountryNamedLocation (.ok locs) postRes planName
          = ⟨.ok, some (namedLocationsPathOf cid), 1, [60000]⟩) := by
  constructor
  · intro loc locId hfind hid
    have ha : adoptScan locs planName = some (some locId) := by
      rw [adoptScan_eq_find, hfind]
      simp [hid]
    constructor <;>
      simp [createIPNamedLocation, createCountryNamedLocation, ha]
  · intro created cid hfind hpost hid hne
    have ha : adoptScan locs planName = none := by
      rw [adoptScan_eq_find, hfind]; rfl
    subst hpost
    constructor <;>
      simp [createIPNamedLocation, createCountryNamedLocation, ha, hid, hne]

/-- A named location already present remotely. -/
def cExistingLoc : RemoteNamedLocation := ⟨some "abc123", some "corp-net"⟩

/-- The named location returned by a successful Post. -/
def cNewLoc : RemoteNamedLocation := ⟨some "new-id-1", some "fresh-loc"⟩

/-- Witness for C4: adoption against a matching listing, and creation
against an empty listing, at concrete inputs. -/
theorem createNamedLocation_idempotent_by_display_name_witness :
    (createIPNamedLocation (ε := Nat) (.ok [cExistingLoc]) (.ok cNewLoc) "corp-net"
        = ⟨.ok, some (namedLocationsPathOf "abc123"), 0, []⟩ ∧
     createCountryNamedLocation (ε := Nat) (.ok [cExistingLoc]) (.ok cNewLoc) "corp-net"
        = ⟨.ok, some (namedLocationsPathOf "abc123"), 0, []⟩) ∧
    (createIPNamedLocation (ε := Nat) (.ok []) (.ok cNewLoc) "fresh-loc"
        = ⟨.ok, some (namedLocationsPathOf "new-id-1"), 1, [60000]⟩ ∧
     createCountryNamedLocation (ε := Nat) (.ok []) (.ok cNewLoc) "fresh-loc"
        = ⟨.ok, some (namedLocationsPathOf "new-id-1"), 1, [60000]⟩) :=
  ⟨(createNamedLocation_idempotent_by_display_name [cExistingLoc] "corp-net"
      (.ok cNewLoc)).1 cExistingLoc "abc123" (by decide) rfl,
   (createNamedLocation_idempotent_by_display_name [] "fresh-loc"
      (.ok cNewLoc)).2 cNewLoc "new-id-1" rfl rfl rfl (by decide)⟩

/-- C6 counterexample.  A create that converges by adopting an existing
matching location returns success with no sleep at all: the one-minute
settle wait does not happen on the adoption path (for either variant),
contradicting the claim that every successful create waits 60 seconds. -/
theorem createNamedLocation_adopt_no_settle_wait :
    createIPNamedLocation (ε := Nat) (.ok [cExistingLoc]) (.ok cNewLoc) "corp-net"
        = ⟨.ok, some (namedLocationsPathOf "abc123"), 0, []⟩ ∧
    createCountryNamedLocation (ε := Nat) (.ok [cExistingLoc]) (.ok cNewLoc) "corp-net"
        = ⟨.ok, some (namedLocationsPathOf "abc123"), 0, []⟩ :=
  ⟨rfl, rfl⟩

/-- C6 amended.  The fixed one-minute settle sleep happens exactly on the
path that issues the Post: a create that posts sleeps 60 s before returning
success, while a create that adopts an existing matching location returns
success immediately with no settle wait (both variants). -/
theorem createNamedLocation_settle_only_after_post {ε : Type}
    (locs : List RemoteNamedLocation) (planName : String)
    (postRes : Except (NLPostError ε) RemoteNamedLocation) :
    (∀ loc locId,
      locs.find? (fun l => l.displayName == some planName) = some loc →
      loc.id = some locId →
      (createIPNamedLocation (.ok locs) postRes planName).sleeps = [] ∧
      (createCountryNamedLocation (.ok locs) postRes planName).sleeps = []) ∧
    (∀ created cid,
      locs.find? (fun l => l.displayName == some planName) = none →
      postRes = .ok created →
      created.id = some cid →
      cid ≠ "" →
      (createIPNamedLocation (.ok locs) postRes planName).sleeps = [60000] ∧
      (createCountryNamedLocation (.ok locs) postRes planName).sleeps = [60000]) := by
  constructor
  · intro loc locId hfind hid
    have ha : adoptScan locs planName = some (some locId) := by
      rw [adoptScan_eq_find, hfind]
      simp [hid]
    constructor <;>
      simp [createIPNamedLocation, createCountryNamedLocation, ha]
  · intro created cid hfind hpost hid hne
    have ha : adoptScan locs planName = none := by
      rw [adoptScan_eq_find, hfind]; rfl
    subst hpost
    constructor <;>
      simp [createIPNamedLocation, createCountryNamedLocation, ha, hid, hne]

/-- Witness for the amended C6 theorem at concrete inputs. -/
theorem createNamedLocation_settle_only_after_post_witness :
    ((createIPNamedLocation (ε := Nat) (.ok [cExistingLoc]) (.ok cNewLoc) "corp-net").sleeps = [] ∧
     (createCountryNamedLocation (ε := Nat) (.ok [cExistingLoc]) (.ok cNewLoc) "corp-net").sleeps = []) ∧
    ((createIPNamedLocation (ε := Nat) (.ok []) (.ok cNewLoc) "fresh-loc").sleeps = [60000] ∧
     (createCountryNamedLocation (ε := Nat) (.ok []) (.ok cNewLoc) "fresh-loc").sleeps = [60000]) :=
  ⟨(createNamedLocation_settle_only_after_post [cExistingLoc] "corp-net"
      (.ok cNewLoc)).1 cExistingLoc "abc123" (by decide) rfl,
   (createNamedLocation_settle_only_after_post [] "fresh-loc"
      (.ok cNewLoc)).2 cNewLoc "new-id-1" rfl rfl rfl (by decide)⟩

/- ----------------------------------------------------------------- -/
/- Authentication method policy resource                              -/
/- ----------------------------------------------------------------- -/

/-- The authentication method types `getAuthMethodReqBody` knows how to
build a request body for. -/
def knownAuthMethodTypes : List String :=
  ["Email", "Fido2", "MicrosoftAuthenticator", "Voice", "Sms", "SoftwareOath",
   "TemporaryAccessPass", "X509Certificate"]

/-- The concrete request-body shape picked per authentication method type
(one SDK constructor per type). -/
inductive AuthMethodConfiguration where
  | email
  | fido2
  | microsoftAuthenticator
  | voice
  | sms
  | softwareOath
  | temporaryAccessPass
  | x509Certificate
  deriving DecidableEq

/-- Embeds `getAuthMethodReqBody`: a `switch` on the type string returning
the matching SDK request object, or nil (`none`) for any other string. -/
def getAuthMethodReqBody (authMethodType : String) : Option AuthMethodConfiguration :=
  match authMethodType with
  | "Email" => some .email
  | "Fido2" => some .fido2
  | "MicrosoftAuthenticator" => some .microsoftAuthenticator
  | "Voice" => some .voice
  | "Sms" => some .sms
  | "SoftwareOath" => some .softwareOath
  | "TemporaryAccessPass" => some .temporaryAccessPass
  | "X509Certificate" => some .x509Certificate
  | _ => none

/-- The SDK enumeration `AuthenticationMethodState`. -/
inductive AuthenticationMethodState where
  | enabled
  | disabled
  deriving DecidableEq

/-- Embeds `getState`: maps the strings `enabled` and `disabled` to the SDK
enumeration and reports any other string as an input-error diagnostic
(carried here as the offending value). -/
def getState (authMethodState : String) : Except String AuthenticationMethodState :=
  match authMethodState with
  | "enabled" => .ok .enabled
  | "disabled" => .ok .disabled
  | _ => .error authMethodState

/-- The target type set on every exclude target (always GROUP in the code). -/
inductive AuthMethodTargetType where
  | group
  deriving DecidableEq

/-- An SDK `ExcludeTarget`: the group ID and the target type. -/
structure ExcludeTarget where
  id : String
  targetType : AuthMethodTargetType
  deriving DecidableEq

/-- The PATCH request body sent to the authentication method configuration
endpoint: the per-type shape, the state, and the exclude-target list, which
is `Option` to model the Go distinction between a nil and a non-nil empty
slice. -/
structure AuthMethodPatchBody where
  config : AuthMethodConfiguration
  state : AuthenticationMethodState
  excludeTargets : Option (List ExcludeTarget)
  deriving DecidableEq

/-- Embeds `authMethodPolicyResourceModel`: plan/state of the resource.
`excludedGroupIDs` is `none` when the optional attribute is omitted (nil
slice) and `some l` otherwise. -/
structure authMethodPolicyResourceModel where
  state : String
  type : String
  excludedGroupIDs : Option (List String)
  deriving DecidableEq

/-- Diagnostics the create/delete helpers can add. -/
inductive AuthMethodDiag where
  | invalidType (t : String)
  | invalidState (s : String)
  | apiError
  deriving DecidableEq

/-- A remote call against the authentication method configuration endpoint.
The Graph client also offers a DELETE on this endpoint; the resource code
never invokes it, which is what C9 asserts. -/
inductive AuthMethodCall where
  | patchCall (configId : String) (body : AuthMethodPatchBody)
  | deleteCall (configId : String)
  deriving DecidableEq

/-- Observable outcome of `createAuthMethodPolicy`: diagnostics, the remote
calls issued (one PATCH per retry attempt), the backoff sleeps, and the
written state (`*state = *plan` on success). -/
structure AuthMethodOpOutcome where
  diags : Option AuthMethodDiag
  calls : List AuthMethodCall
  sleeps : List Nat
  newState : Option authMethodPolicyResourceModel
  deriving DecidableEq

/-- Observable outcome of `deleteAuthMethodPolicy`. -/
structure AuthMethodDeleteOutcome where
  diags : Option AuthMethodDiag
  calls : List AuthMethodCall
  sleeps : List Nat
  deriving DecidableEq

/-- The retried closure body shared (verbatim, up to the request it sends)
by `createAuthMethodPolicy` and `deleteAuthMethodPolicy`: one PATCH call
whose error, if any, is classified by `handleAPIError`.  `patchResults n`
is the oracle error of the PATCH at attempt `n` (`none` is success). -/
def authMethodPatchOp (patchResults : Nat → Option APIError) :
    Nat → Except (RetryError APIError) Unit :=
  fun n =>
    match patchResults n with
    | some e => .error (handleAPIError e)
    | none => .ok ()

/-- Embeds `createAuthMethodPolicy`: build the exclude-target list as a
non-nil empty slice extended with one GROUP target per planned group ID;
reject an unknown type (nil request body) or an invalid state string as an
input-error diagnostic before any remote call; otherwise PATCH the full
request body under the backoff executor and, on success, overwrite the
state with the plan. -/
def createAuthMethodPolicy (plan : authMethodPolicyResourceModel)
    (patchResults : Nat → Option APIError) (rand : Nat → Nat → Nat) (fuel : Nat) :
    AuthMethodOpOutcome :=
  let excludedGroups : Option (List ExcludeTarget) :=
    some ((plan.excludedGroupIDs.getD []).map (fun gid => ⟨gid, .group⟩))
  match getAuthMethodReqBody plan.type with
  | none => ⟨some (.invalidType plan.type), [], [], none⟩
  | some cfg =>
    match getState plan.state with
    | .error s => ⟨some (.invalidState s), [], [], none⟩
    | .ok authMethodPolicyState =>
      let requestBody : AuthMethodPatchBody :=
        ⟨cfg, authMethodPolicyState, excludedGroups⟩
      let out := backoffRetry (authMethodPatchOp patchResults) rand fuel
      let calls := List.replicate out.attempts (AuthMethodCall.patchCall plan.type requestBody)
      match out.result with
      | some (.ok _) => ⟨none, calls, out.sleeps, some plan⟩
      | some (.error _) => ⟨some .apiError, calls, out.sleeps, none⟩
      | none => ⟨none, calls, out.sleeps, none⟩

/-- Embeds `deleteAuthMethodPolicy`: build the request body for the stored
type and PATCH it with state `disabled` and a non-nil empty exclude-target
list, under the backoff executor.  Unlike the create path there is no nil
check on `getAuthMethodReqBody`, so an unknown type dereferences a nil
request body at `SetState`; that panic is modelled as `none`. -/
def deleteAuthMethodPolicy (state : authMethodPolicyResourceModel)
    (patchResults : Nat → Option APIError) (rand : Nat → Nat → Nat) (fuel : Nat) :
    Option AuthMethodDeleteOutcome :=
  match getAuthMethodReqBody state.type with
  | none => none
  | some cfg =>
    match getState "disabled" with
    | .error s => some ⟨some (.invalidState s), [], []⟩
    | .ok authMethodPolicyState =>
      let emptyTarget : List ExcludeTarget := []
      let requestBody : AuthMethodPatchBody := ⟨cfg, authMethodPolicyState, some emptyTarget⟩
      let out := backoffRetry (authMethodPatchOp patchResults) rand fuel
      let calls := List.replicate out.attempts (AuthMethodCall.patchCall state.type requestBody)
      match out.result with
      | some (.error _) => some ⟨some .apiError, calls, out.sleeps⟩
      | _ => some ⟨none, calls, out.sleeps⟩

/-- If the first invocation of the operation succeeds, the executor returns
that success after exactly one invocation and no sleep. -/
theorem backoffRetry_first_success {ε α : Type}
    (op : Nat → Except (RetryError ε) α) (rand : Nat → Nat → Nat)
    (fuel : Nat) (a : α) (hf : 0 < fuel) (h : op 0 = .ok a) :
    backoffRetry op rand fuel = ⟨some (.ok a), 1, []⟩ := by
  cases fuel with
  | zero => exact absurd hf (by simp)
  | succ f => simp [backoffRetry, retryGo, h]

/-- With at least one unit of fuel the retry loop invokes the operation at
least once past the attempt counter it starts from. -/
theorem retryGo_attempts_lower {ε α : Type} (op : Nat → Except (RetryError ε) α)
    (rand : Nat → Nat → Nat) (mi me : Nat) :
    ∀ (fuel n interval elapsed : Nat) (acc : List Nat), 0 < fuel →
      n + 1 ≤ (retryGo op rand mi me fuel n interval elapsed acc).attempts := by
  intro fuel
  induction fuel with
  | zero => intro n interval elapsed acc h; exact absurd h (by simp)
  | succ f ih =>
    intro n interval elapsed acc _
    rw [retryGo]
    cases op n with
    | ok a => simp
    | error re =>
      cases re with
      | permanent e => simp
      | transient e =>
        by_cases hel : me < elapsed
        · simp [hel]
        · simp only [if_neg hel]
          cases Nat.eq_zero_or_pos f with
          | inl h0 => subst h0; rw [retryGo]
          | inr hpos =>
            have h := ih (n+1) (min (interval * 3 / 2) mi)
              (elapsed + rand n interval) (rand n interval :: acc) hpos
            omega

/-- The type strings for which `getAuthMethodReqBody` returns nil are
exactly those outside `knownAuthMethodTypes`. -/
theorem getAuthMethodReqBody_none_iff (t : String) :
    getAuthMethodReqBody t = none ↔ t ∉ knownAuthMethodTypes := by
  unfold getAuthMethodReqBody
  split
  all_goals simp_all [knownAuthMethodTypes]

/-- C7. Creating (or updating) the policy with a valid type, state
`enabled` and an omitted or empty excluded-group list issues exactly one
PATCH call whose body carries a non-nil empty exclude-target list — the
remote exclude list is overwritten with empty (full-replace) — and the
resulting state equals the plan, i.e. records the same empty list. -/
theorem createAuthMethodPolicy_empty_exclude_full_replace (t : String)
    (excl : Option (List String)) (patchResults : Nat → Option APIError)
    (rand : Nat → Nat → Nat) (fuel : Nat) (cfg : AuthMethodConfiguration)
    (hcfg : getAuthMethodReqBody t = some cfg)
    (hexcl : excl = none ∨ excl = some [])
    (hfirst : patchResults 0 = none) (hfuel : 0 < fuel) :
    createAuthMethodPolicy ⟨"enabled", t, excl⟩ patchResults rand fuel
      = ⟨none, [.patchCall t ⟨cfg, .enabled, some []⟩], [],
         some ⟨"enabled", t, excl⟩⟩ := by
  have hop : backoffRetry (authMethodPatchOp patchResults) rand fuel
      = ⟨some (.ok ()), 1, []⟩ :=
    backoffRetry_first_success _ rand fuel () hfuel
      (by simp [authMethodPatchOp, hfirst])
  rcases hexcl with rfl | rfl <;>
    simp [createAuthMethodPolicy, hcfg, getState, hop, List.replicate]

/-- Witness for C7 at the concrete desired state of the scenario in the spec. -/
theorem createAuthMethodPolicy_empty_exclude_full_replace_witness :
    createAuthMethodPolicy ⟨"enabled", "Email", some []⟩ (fun _ => none) midRand 1
      = ⟨none, [.patchCall "Email" ⟨.email, .enabled, some []⟩], [],
         some ⟨"enabled", "Email", some []⟩⟩ :=
  createAuthMethodPolicy_empty_exclude_full_replace "Email" (some [])
    (fun _ => none) midRand 1 .email rfl (Or.inr rfl) rfl (by decide)

/-- C9. Deleting the policy never issues a remote DELETE: every call it
makes is a PATCH on the policy type whose body has state `disabled` and a
non-nil empty exclude-target list; and for every known type (with fuel to
run) the delete helper does run and issues at least one such PATCH. -/
theorem deleteAuthMethodPolicy_never_deletes (st : authMethodPolicyResourceModel)
    (patchResults : Nat → Option APIError) (rand : Nat → Nat → Nat) (fuel : Nat) :
    (∀ out, deleteAuthMethodPolicy st patchResults rand fuel = some out →
      ∀ c ∈ out.calls,
        (∃ cfg, getAuthMethodReqBody st.type = some cfg ∧
          c = .patchCall st.type ⟨cfg, .disabled, some []⟩) ∧
        ∀ cid, c ≠ .deleteCall cid) ∧
    (∀ cfg, getAuthMethodReqBody st.type = some cfg → 0 < fuel →
      ∃ out, deleteAuthMethodPolicy st patchResults rand fuel = some out ∧
        0 < out.calls.length) := by
  constructor
  · intro out hout c hc
    unfold deleteAuthMethodPolicy at hout
    cases hcfg : getAuthMethodReqBody st.type with
    | none => rw [hcfg] at hout; simp at hout
    | some cfg =>
      rw [hcfg] at hout
      simp only [getState] at hout
      split at hout <;>
      · injection hout with hout
        subst hout
        simp only [List.mem_replicate] at hc
        rw [hc.2]
        exact ⟨⟨cfg, rfl, rfl⟩, by simp⟩
  · intro cfg hcfg hfuel
    have hatt := retryGo_attempts_lower (authMethodPatchOp patchResults) rand
      60000 30000 fuel 0 500 0 [] hfuel
    unfold deleteAuthMethodPolicy
    rw [hcfg]
    simp only [getState]
    split
    · exact ⟨_, rfl, by simpa [backoffRetry] using hatt⟩
    · exact ⟨_, rfl, by simpa [backoffRetry] using hatt⟩

/-- Witness for C9: a delete of the Email policy issues its PATCH. -/
theorem deleteAuthMethodPolicy_never_deletes_witness :
    ∃ out, deleteAuthMethodPolicy ⟨"enabled", "Email", none⟩ (fun _ => none)
        midRand 1 = some out ∧ 0 < out.calls.length :=
  (deleteAuthMethodPolicy_never_deletes ⟨"enabled", "Email", none⟩
    (fun _ => none) midRand 1).2 .email rfl (by decide)

/-- C10. `deleteAuthMethodPolicy` is safe only for the known authentication
method types: for any other type string it dereferences the nil request
body returned by `getAuthMethodReqBody` (modelled as `none`), whereas the
create path checks for nil and returns an input-error diagnostic with no
remote call; for every known type the delete helper runs normally. -/
theorem deleteAuthMethodPolicy_unknown_type_nil_deref (st : authMethodPolicyResourceModel)
    (patchResults : Nat → Option APIError) (rand : Nat → Nat → Nat) (fuel : Nat) :
    (st.type ∉ knownAuthMethodTypes →
      deleteAuthMethodPolicy st patchResults rand fuel = none ∧
      createAuthMethodPolicy st patchResults rand fuel
        = ⟨some (.invalidType st.type), [], [], none⟩) ∧
    (st.type ∈ knownAuthMethodTypes →
      (deleteAuthMethodPolicy st patchResults rand fuel).isSome = true) := by
  constructor
  · intro h
    have hn : getAuthMethodReqBody st.type = none :=
      (getAuthMethodReqBody_none_iff st.type).mpr h
    constructor
    · unfold deleteAuthMethodPolicy
      rw [hn]
    · unfold createAuthMethodPolicy
      rw [hn]
  · intro h
    cases hcfg : getAuthMethodReqBody st.type with
    | none => exact absurd h ((getAuthMethodReqBody_none_iff st.type).mp hcfg)
    | some cfg =>
      unfold deleteAuthMethodPolicy
      rw [hcfg]
      simp only [getState]
      split <;> simp

/-- Witness for C10: the unsupported type QRCodePin panics in delete and is
rejected as an input error in create; the known type Sms runs normally. -/
theorem deleteAuthMethodPolicy_unknown_type_nil_deref_witness :
    (deleteAuthMethodPolicy ⟨"enabled", "QRCodePin", none⟩ (fun _ => none) midRand 1
        = none ∧
     createAuthMethodPolicy ⟨"enabled", "QRCodePin", none⟩ (fun _ => none) midRand 1
        = ⟨some (.invalidType "QRCodePin"), [], [], none⟩) ∧
    (deleteAuthMethodPolicy ⟨"enabled", "Sms", none⟩ (fun _ => none) midRand 1).isSome
        = true :=
  ⟨(deleteAuthMethodPolicy_unknown_type_nil_deref ⟨"enabled", "QRCodePin", none⟩
      (fun _ => none) midRand 1).1 (by decide),
   (deleteAuthMethodPolicy_unknown_type_nil_deref ⟨"enabled", "Sms", none⟩
      (fun _ => none) midRand 1).2 (by decide)⟩
